import Mathlib

/-!
Verification development for `arc_unpack.py`, the ArcUnpack migration
pipeline.  The script extracts binary `.pack` archives using sibling JSON
indices, converts song/pack metadata into catalog records, moves every
copied asset into a flat content store named by SHA-1 of the bytes, and
finally inserts all records into the catalog database.

The definitions below are a shallow embedding of that script:
file contents are lists of byte values (`List Nat`), the filesystem is an
association list from path to contents, Python `file.read(n)` / slicing is
`drop`/`take`, Python list indexing (including negative indices) is
`pyIndex`, and every fallible step of the script is an `Except String`
value whose `.error` branch corresponds to an uncaught Python exception
aborting the run.
-/

namespace ArcUnpack

/-- A filesystem: association list from path to file bytes. -/
def Fs := List (String × List Nat)

/-- Lookup in an association list keyed by strings. -/
def lookupAL {α : Type} : List (String × α) → String → Option α
  | [], _ => none
  | (k, v) :: rest, q => if k = q then some v else lookupAL rest q

/-- Insert-or-overwrite in an association list: models writing a file at a
path (`shutil.copyfile` overwrites an existing destination). -/
def upsert : List (String × List Nat) → String → List Nat → List (String × List Nat)
  | [], p, c => [(p, c)]
  | (q, d) :: rest, p, c =>
      if q = p then (q, c) :: rest else (q, d) :: upsert rest p c

/-- Python `str.replace` over characters: replace all non-overlapping
occurrences of `pat` left to right.  Structural recursion on a fuel
argument (initially the string length) so that the kernel can evaluate
it; the script only ever passes non-empty patterns. -/
def pyReplaceAux (pat rep : List Char) : Nat → List Char → List Char
  | 0, s => s
  | _ + 1, [] => []
  | fuel + 1, c :: rest =>
      if pat.isPrefixOf (c :: rest) && !pat.isEmpty then
        rep ++ pyReplaceAux pat rep fuel ((c :: rest).drop pat.length)
      else c :: pyReplaceAux pat rep fuel rest

/-- Python `s.replace(pat, rep)`. -/
def pyReplace (s pat rep : String) : String :=
  ⟨pyReplaceAux pat.data rep.data s.data.length s.data⟩

/-- Python list indexing `l[i]`: negative indices count from the end,
anything out of range is an `IndexError` (here `none`). -/
def pyIndex {α : Type} (l : List α) (i : Int) : Option α :=
  let j : Int := if i < 0 then i + l.length else i
  if 0 ≤ j ∧ j < l.length then l[j.toNat]? else none

/- ## Pack extraction (`arc_unpack.py` lines 119-146)

Each `.pack` file has a JSON index of groups of entries; every entry names
a destination file and a byte range `[Offset, Offset+Length)` in the pack.
The script sorts the pack list, then for each entry seeks to `Offset` and
writes `pack.read(Length)` to `<group.Name>/<entry.OriginalFilename>`.
Python's `read` at or past EOF silently returns only the available bytes. -/

structure PackEntry where
  originalFilename : String
  offset : Nat
  length : Nat
deriving DecidableEq, Repr

structure PackGroup where
  name : String
  orderedEntries : List PackEntry
deriving DecidableEq, Repr

structure PackIndex where
  groups : List PackGroup
deriving DecidableEq, Repr

structure PackFile where
  name : String
  bytes : List Nat
  index : PackIndex
deriving DecidableEq, Repr

/-- `pack_list.sort()`: insertion sort by pack filename. -/
def insertPack (p : PackFile) : List PackFile → List PackFile
  | [] => [p]
  | q :: qs => if q.name < p.name then q :: insertPack p qs else p :: q :: qs

/-- Sorted pack list (lexicographically by filename, as `pack_list.sort()`). -/
def sortPacks (l : List PackFile) : List PackFile := l.foldr insertPack []

/-- The single write performed for one index entry: destination path and
the bytes `pack.seek(Offset); pack.read(Length)` actually returns.  Python
`read` truncates at end of file, hence `drop`/`take`. -/
def entryWrite (bytes : List Nat) (g : PackGroup) (e : PackEntry) : String × List Nat :=
  (g.name ++ "/" ++ e.originalFilename, (bytes.drop e.offset).take e.length)

/-- All writes performed while extracting one pack, in order. -/
def packWrites (p : PackFile) : List (String × List Nat) :=
  (p.index.groups.map (fun g => g.orderedEntries.map (entryWrite p.bytes g))).flatten

/-- All writes of the whole extraction stage, packs processed in sorted
filename order. -/
def allWrites (packs : List PackFile) : List (String × List Nat) :=
  ((sortPacks packs).map packWrites).flatten

/-- Replay a list of writes over a filesystem-as-function (later writes to
the same path overwrite earlier ones, like repeated `open(..., 'wb')`). -/
def applyWrites (ws : List (String × List Nat)) : String → Option (List Nat) :=
  ws.foldl (fun fs w => fun q => if q = w.1 then some w.2 else fs q) (fun _ => none)

/-- The staged tree produced by the extraction loop. -/
def extractAll (packs : List PackFile) : String → Option (List Nat) :=
  applyWrites (allWrites packs)

/-- The last write to a given path in a list of writes: the bytes of the
rightmost pair naming that path, if any. -/
def lastWrite : List (String × List Nat) → String → Option (List Nat)
  | [], _ => none
  | w :: ws, path =>
      match lastWrite ws path with
      | some v => some v
      | none => if w.1 = path then some w.2 else none

lemma mem_insertPack {a p : PackFile} {l : List PackFile} :
    a ∈ insertPack p l ↔ a = p ∨ a ∈ l := by
  induction l with
  | nil => simp [insertPack]
  | cons q qs ih =>
      by_cases h : q.name < p.name
      · simp [insertPack, h, ih]
        tauto
      · simp [insertPack, h]

lemma mem_sortPacks {p : PackFile} {l : List PackFile} :
    p ∈ sortPacks l ↔ p ∈ l := by
  induction l with
  | nil => simp [sortPacks]
  | cons q qs ih =>
      simp only [sortPacks, List.foldr] at *
      rw [mem_insertPack, ih]
      simp

lemma mem_packWrites {p : PackFile} {g : PackGroup} {e : PackEntry}
    (hg : g ∈ p.index.groups) (he : e ∈ g.orderedEntries) :
    entryWrite p.bytes g e ∈ packWrites p := by
  unfold packWrites
  rw [List.mem_flatten]
  exact ⟨g.orderedEntries.map (entryWrite p.bytes g),
    List.mem_map_of_mem _ hg, List.mem_map_of_mem _ he⟩

lemma mem_allWrites {packs : List PackFile} {p : PackFile} {w : String × List Nat}
    (hp : p ∈ packs) (hw : w ∈ packWrites p) : w ∈ allWrites packs := by
  unfold allWrites
  rw [List.mem_flatten]
  exact ⟨packWrites p, List.mem_map_of_mem _ (mem_sortPacks.mpr hp), hw⟩

lemma applyWrites_go (ws : List (String × List Nat)) :
    ∀ (f : String → Option (List Nat)) (path : String),
      ws.foldl (fun fs w => fun q => if q = w.1 then some w.2 else fs q) f path =
        match lastWrite ws path with
        | some v => some v
        | none => f path := by
  induction ws with
  | nil => intro f path; simp [lastWrite]
  | cons w ws ih =>
      intro f path
      simp only [List.foldl_cons]
      rw [ih]
      have hcons : lastWrite (w :: ws) path =
          match lastWrite ws path with
          | some v => some v
          | none => if w.1 = path then some w.2 else none := rfl
      cases hlw : lastWrite ws path with
      | some v => rw [hcons, hlw]
      | none =>
          rw [hcons, hlw]
          by_cases hw : w.1 = path
          · simp [hw]
          · have hpw : ¬ (path = w.1) := fun h => hw h.symm
            simp [hw, hpw]

lemma extractAll_eq_lastWrite (packs : List PackFile) (path : String) :
    extractAll packs path =
      match lastWrite (allWrites packs) path with
      | some v => some v
      | none => none := by
  unfold extractAll applyWrites
  exact applyWrites_go (allWrites packs) _ path

/- ## SHA-1 and the content store (`arc_unpack.py` lines 289-305)

The "Move files" stage hashes each working file with `hashlib.sha1` and
renames it to `storage/<hexdigest><suffix>` unless a file of that name is
already there.  SHA-1 is embedded below over byte lists, with 32-bit words
as `Nat` reduced `% 2^32`. -/

/-- 32-bit left rotation. -/
def rotl32 (n x : Nat) : Nat :=
  ((x <<< n) % 4294967296) ||| (x >>> (32 - n))

/-- Big-endian 8-byte encoding of a natural number (the 64-bit message
length field of SHA-1 padding). -/
def beBytes8 (n : Nat) : List Nat :=
  [(n >>> 56) % 256, (n >>> 48) % 256, (n >>> 40) % 256, (n >>> 32) % 256,
   (n >>> 24) % 256, (n >>> 16) % 256, (n >>> 8) % 256, n % 256]

/-- SHA-1 message padding: `0x80`, zeros to 56 mod 64, then the bit length. -/
def sha1pad (m : List Nat) : List Nat :=
  m ++ [128] ++ List.replicate ((120 - ((m.length + 1) % 64)) % 64) 0
    ++ beBytes8 (8 * m.length)

/-- Big-endian 32-bit words from a byte list (length assumed divisible by 4). -/
def beWords : List Nat → List Nat
  | b0 :: b1 :: b2 :: b3 :: rest =>
      (((b0 * 256 + b1) * 256 + b2) * 256 + b3) :: beWords rest
  | _ => []

/-- Split a list into chunks of 16 elements. -/
def chunks16 (l : List Nat) : List (List Nat) :=
  if h : l.length < 16 then []
  else
    have : l.length - 16 < l.length := by omega
    l.take 16 :: chunks16 (l.drop 16)
termination_by l.length
decreasing_by simpa using this

/-- Expand 16 message words to the 80 SHA-1 schedule words. -/
def sha1schedule (ws : List Nat) : List Nat :=
  (List.range 64).foldl
    (fun a _ =>
      a ++ [rotl32 1 ((a.getD (a.length - 3) 0) ^^^ (a.getD (a.length - 8) 0)
        ^^^ (a.getD (a.length - 14) 0) ^^^ (a.getD (a.length - 16) 0))])
    ws

/-- The SHA-1 running state: five 32-bit words. -/
structure Sha1State where
  h0 : Nat
  h1 : Nat
  h2 : Nat
  h3 : Nat
  h4 : Nat
deriving DecidableEq, Repr

/-- One SHA-1 round: `i` is the round number, `w` the schedule word. -/
def sha1round (st : Nat × Nat × Nat × Nat × Nat) (iw : Nat × Nat) :
    Nat × Nat × Nat × Nat × Nat :=
  let (a, b, c, d, e) := st
  let (i, w) := iw
  let f :=
    if i < 20 then (b &&& c) ||| ((4294967295 ^^^ b) &&& d)
    else if i < 40 then b ^^^ c ^^^ d
    else if i < 60 then (b &&& c) ||| (b &&& d) ||| (c &&& d)
    else b ^^^ c ^^^ d
  let k :=
    if i < 20 then 1518500249
    else if i < 40 then 1859775393
    else if i < 60 then 2400959708
    else 3395469782
  let temp := (rotl32 5 a + f + e + k + w) % 4294967296
  (temp, a, rotl32 30 b, c, d)

/-- Process one 512-bit chunk (16 words) of the padded message. -/
def sha1chunk (st : Sha1State) (ws : List Nat) : Sha1State :=
  let sched := sha1schedule ws
  let (a, b, c, d, e) :=
    sched.enum.foldl sha1round (st.h0, st.h1, st.h2, st.h3, st.h4)
  { h0 := (st.h0 + a) % 4294967296, h1 := (st.h1 + b) % 4294967296,
    h2 := (st.h2 + c) % 4294967296, h3 := (st.h3 + d) % 4294967296,
    h4 := (st.h4 + e) % 4294967296 }

/-- SHA-1 of a byte list, as the final five-word state. -/
def sha1digest (m : List Nat) : Sha1State :=
  (chunks16 (beWords (sha1pad m))).foldl sha1chunk
    { h0 := 1732584193, h1 := 4023233417, h2 := 2562383102,
      h3 := 271733878, h4 := 3285377520 }

/-- One lowercase hexadecimal digit: `0`-`9` then `a`-`f`. -/
def hexDigit (n : Nat) : Char :=
  if n < 10 then Char.ofNat (48 + n) else Char.ofNat (87 + n)

/-- Eight lowercase hex digits of a 32-bit word. -/
def toHex8 (w : Nat) : String :=
  String.mk [hexDigit ((w >>> 28) % 16), hexDigit ((w >>> 24) % 16),
    hexDigit ((w >>> 20) % 16), hexDigit ((w >>> 16) % 16),
    hexDigit ((w >>> 12) % 16), hexDigit ((w >>> 8) % 16),
    hexDigit ((w >>> 4) % 16), hexDigit (w % 16)]

/-- `sha1(...).hexdigest()`: forty lowercase hex characters. -/
def sha1hex (m : List Nat) : String :=
  toHex8 (sha1digest m).h0 ++ toHex8 (sha1digest m).h1
    ++ toHex8 (sha1digest m).h2 ++ toHex8 (sha1digest m).h3
    ++ toHex8 (sha1digest m).h4

lemma toHex8_length (w : Nat) : (toHex8 w).length = 8 := rfl

lemma sha1hex_length (m : List Nat) : (sha1hex m).length = 40 := by
  simp [sha1hex, String.length_append, toHex8_length]

/-- The characters after the last `/` of a path (the final component). -/
def afterLastSlash : List Char → List Char
  | [] => []
  | c :: rest =>
      if '/' ∈ rest then afterLastSlash rest
      else if c = '/' then rest else c :: rest

/-- Index of the last `.` in a character list, if any. -/
def rfindDot : List Char → Option Nat
  | [] => none
  | c :: rest =>
      match rfindDot rest with
      | some k => some (k + 1)
      | none => if c = '.' then some 0 else none

/-- `pathlib.Path(...).suffix`: the last dot-suffix of the final path
component, dot included; empty when the final component has no dot, starts
with its only dot, or ends with the dot. -/
def pySuffix (s : String) : String :=
  let name := afterLastSlash s.data
  match rfindDot name with
  | some k => if 0 < k ∧ k < name.length - 1 then String.mk (name.drop k) else ""
  | none => ""

/-- The canonical stored name used by the "Move files" stage:
`f"{sha1(open(file, 'rb').read()).hexdigest()}{file.suffix}"`. -/
def storedName (content : List Nat) (path : String) : String :=
  sha1hex content ++ pySuffix path

lemma storedName_length (content : List Nat) (path : String) :
    40 ≤ (storedName content path).length := by
  simp [storedName, String.length_append, sha1hex_length]

/-- A `File` catalog record: `_id` is the original relative path, the two
other fields both carry the hash-derived stored name. -/
structure FileRec where
  docId : String
  realPath : String
  correctHashPath : String
deriving DecidableEq, Repr

/-- The record appended to `converted_files` for one working file. -/
def mkFileRec (path : String) (content : List Nat) : FileRec :=
  { docId := path, realPath := storedName content path,
    correctHashPath := storedName content path }

/-- One step of the store-building loop: move the file to its stored name
unless a file of that name already exists (`if not file_hash_path.exists()`).
Duplicates are dropped, the existing stored file is kept. -/
def storeAdd (store : List (String × List Nat)) (path : String)
    (content : List Nat) : List (String × List Nat) :=
  if storedName content path ∈ store.map Prod.fst then store
  else store ++ [(storedName content path, content)]

/-- The full "Move files" loop: walks the working files in order, building
the content store and the list of `File` records. -/
def moveFilesAux (store : List (String × List Nat)) (recs : List FileRec) :
    List (String × List Nat) → List (String × List Nat) × List FileRec
  | [] => (store, recs)
  | (p, c) :: rest => moveFilesAux (storeAdd store p c) (recs ++ [mkFileRec p c]) rest

def moveFiles (files : List (String × List Nat)) :
    List (String × List Nat) × List FileRec :=
  moveFilesAux [] [] files

lemma storeAdd_names_mem {store : List (String × List Nat)} {p : String}
    {c : List Nat} {n : String} (h : n ∈ (storeAdd store p c).map Prod.fst) :
    n ∈ store.map Prod.fst ∨ n = storedName c p := by
  unfold storeAdd at h
  by_cases hmem : storedName c p ∈ store.map Prod.fst
  · rw [if_pos hmem] at h
    exact Or.inl h
  · rw [if_neg hmem] at h
    rw [List.map_append] at h
    rcases List.mem_append.mp h with h1 | h2
    · exact Or.inl h1
    · simp at h2
      exact Or.inr h2

lemma moveFilesAux_recs :
    ∀ (files : List (String × List Nat)) store recs,
      (moveFilesAux store recs files).2 = recs ++ files.map (fun f => mkFileRec f.1 f.2) := by
  intro files
  induction files with
  | nil => intro store recs; simp [moveFilesAux]
  | cons f rest ih =>
      intro store recs
      obtain ⟨p, c⟩ := f
      simp only [moveFilesAux, ih, List.map_cons]
      simp

lemma moveFilesAux_store_long :
    ∀ (files : List (String × List Nat)) store recs n,
      n ∈ (moveFilesAux store recs files).1.map Prod.fst →
      n ∈ store.map Prod.fst ∨ 40 ≤ n.length := by
  intro files
  induction files with
  | nil => intro store recs n h; exact Or.inl h
  | cons f rest ih =>
      intro store recs n h
      obtain ⟨p, c⟩ := f
      simp only [moveFilesAux] at h
      rcases ih _ _ _ h with h1 | h2
      · rcases storeAdd_names_mem h1 with h3 | h4
        · exact Or.inl h3
        · exact Or.inr (h4 ▸ storedName_length c p)
      · exact Or.inr h2

/-- Every name in the finished content store is a stored name: at least
forty characters long (the hex digest plus the original extension). -/
lemma moveFiles_names_long {files : List (String × List Nat)} {n : String}
    (h : n ∈ (moveFiles files).1.map Prod.fst) : 40 ≤ n.length := by
  rcases moveFilesAux_store_long files [] [] n h with h1 | h2
  · simp at h1
  · exact h2

/- ## Metadata transformation (`arc_unpack.py` lines 148-285)

One `CatalogLevel` per `SongRecord`, one `CatalogPack` per pack-list
entry.  `title_localized['en']` and `name_localized['en']` are embedded as
plain string fields; integer-valued JSON fields are `Int`/`Nat`. -/

/-- The two fixed 4-entry lookup tables (lines 7-8). -/
def DIFFICULTY_NAMES : List String := ["Past", "Present", "Future", "Beyond"]

def DIFFICULTY_COLORS : List String :=
  ["#3A6B78FF", "#566947FF", "#482B54FF", "#7C1C30FF"]

structure Difficulty where
  ratingClass : Int
  rating : Int
  chartDesigner : String
  jacketDesigner : String
deriving DecidableEq, Repr

structure Song where
  id : String
  set : String
  date : Nat
  bpm : String
  bpmBase : Int
  side : Int
  bg : String
  titleEn : String
  artist : String
  remoteDl : Bool
  difficulties : List Difficulty
deriving DecidableEq, Repr

/-- One chart entry of a converted song.  `Skin = {'Side': ...}` is
flattened into the optional `skinSide`, and the float casts of the source
(`float(bpm_base)`, `float(rating)`) are kept as the integers they cast. -/
structure Chart where
  chartPath : String
  audioPath : String
  jacketPath : String
  baseBpm : Int
  title : String
  composer : String
  charter : String
  illustrator : String
  difficulty : String
  chartConstant : Int
  difficultyColor : String
  skinSide : Option String
  syncBaseBpm : Bool
  bpmText : Option String
  backgroundPath : String
deriving DecidableEq, Repr

/-- A converted `Level` record (`converted_song`).  `idNum` is the `_id`
counter value; `Settings` is flattened into `charts` and
`lastOpenedChartPath`. -/
structure LevelRec where
  idNum : Nat
  identifier : String
  isDefaultAsset : Bool
  addedDate : String
  version : Nat
  charts : List Chart
  lastOpenedChartPath : String
  fileReferences : List String
deriving DecidableEq, Repr

/-- The default background name: `byd`/`base` by rating class 3, crossed
with `light`/`conflict` by side 0 (lines 217-224). -/
def bgNameFor (song : Song) (d : Difficulty) : String :=
  if song.bg ≠ "" then song.bg ++ ".jpg"
  else (if d.ratingClass = 3 then "byd" else "base") ++ "_"
    ++ (if song.side = 0 then "light" else "conflict") ++ ".jpg"

/-- The chart filename `f"{diff['ratingClass']}.aff"`. -/
def chartNameFor (d : Difficulty) : String := toString d.ratingClass ++ ".aff"

/-- The chart dictionary built for one difficulty (lines 195-231), as a
function of the song and the difficulty.  The difficulty name and color
lookups use `getD ""` here; `diffStep` only reaches this after checking
both `pyIndex` lookups succeed, mirroring the `IndexError` the script
would raise. -/
def mkChart (song : Song) (d : Difficulty) : Chart :=
  { chartPath := chartNameFor d,
    audioPath := "base.ogg",
    jacketPath := "base.jpg",
    baseBpm := song.bpmBase,
    title := song.titleEn,
    composer := song.artist,
    charter := d.chartDesigner,
    illustrator := d.jacketDesigner,
    difficulty := (pyIndex DIFFICULTY_NAMES d.ratingClass).getD "" ++ " "
      ++ toString d.rating,
    chartConstant := d.rating,
    difficultyColor := (pyIndex DIFFICULTY_COLORS d.ratingClass).getD "",
    skinSide := if song.side = 0 then some "light"
      else if song.side = 1 then some "conflict" else none,
    syncBaseBpm := song.bpm == toString song.bpmBase,
    bpmText := if song.bpm == toString song.bpmBase then none
      else some (pyReplace (pyReplace song.bpm " " "") "-" " - "),
    backgroundPath := bgNameFor song d }

/-- State threaded through the per-difficulty loop: the song's working
directory contents, the backgrounds copied so far (`background_paths`) and
the charts built so far. -/
structure SongState where
  dir : List (String × List Nat)
  bgs : List String
  charts : List Chart
deriving DecidableEq, Repr

/-- One iteration of the per-difficulty loop: copy the chart file (fatal
if absent), look up the difficulty tables (fatal `IndexError` when
`pyIndex` fails), then copy the background only when no file of that name
is in the working directory yet. -/
def diffStep (fs : Fs) (oid : String) (song : Song) (st : SongState)
    (d : Difficulty) : Except String SongState :=
  match lookupAL fs ("charts/songs/" ++ oid ++ "/" ++ chartNameFor d) with
  | none => .error ("FileNotFoundError: charts/songs/" ++ oid ++ "/" ++ chartNameFor d)
  | some chartBytes =>
    match pyIndex DIFFICULTY_NAMES d.ratingClass,
        pyIndex DIFFICULTY_COLORS d.ratingClass with
    | some _, some _ =>
        if bgNameFor song d ∈ (upsert st.dir (chartNameFor d) chartBytes).map Prod.fst then
          .ok ⟨upsert st.dir (chartNameFor d) chartBytes, st.bgs,
            st.charts ++ [mkChart song d]⟩
        else
          match lookupAL fs ("not_audio/img/bg/" ++ bgNameFor song d) with
          | none => .error ("FileNotFoundError: not_audio/img/bg/" ++ bgNameFor song d)
          | some bgBytes =>
              .ok ⟨upsert (upsert st.dir (chartNameFor d) chartBytes)
                    (bgNameFor song d) bgBytes,
                st.bgs ++ [bgNameFor song d],
                st.charts ++ [mkChart song d]⟩
    | _, _ => .error "IndexError: list index out of range"

/-- The whole `for diff in song['difficulties']` loop. -/
def processDiffs (fs : Fs) (oid : String) (song : Song) :
    SongState → List Difficulty → Except String SongState
  | st, [] => .ok st
  | st, d :: ds =>
      match diffStep fs oid song st d with
      | .error e => .error e
      | .ok st' => processDiffs fs oid song st' ds

/-- `original_id`: `"dl_" + id` for remote-downloadable songs, else `id`. -/
def origId (song : Song) : String :=
  if song.remoteDl then "dl_" ++ song.id else song.id

/-- `new_id`: the target identifier, always `"<set>.<id>"`. -/
def newIdOf (song : Song) : String := song.set ++ "." ++ song.id

/-- The `ChartPath` list of a chart list. -/
def chartPaths (charts : List Chart) : List String :=
  charts.map (fun c => c.chartPath)

/-- Per-song conversion (lines 166-247): copy base audio and jacket (fatal
if absent), run the difficulty loop, read `charts[-1]` for
`LastOpenedChartPath` (fatal `IndexError` on an empty chart list), and
assemble the record plus the song's working files under
`Level/<set>.<id>/`. -/
def convertSong (fs : Fs) (i : Nat) (song : Song) :
    Except String (LevelRec × List (String × List Nat)) :=
  match lookupAL fs ("Fallback/songs/" ++ origId song ++ "/base.ogg") with
  | none => .error ("FileNotFoundError: Fallback/songs/" ++ origId song ++ "/base.ogg")
  | some audio =>
    match lookupAL fs ("jackets_large/songs/" ++ origId song ++ "/base.jpg") with
    | none => .error ("FileNotFoundError: jackets_large/songs/" ++ origId song ++ "/base.jpg")
    | some jacket =>
      match processDiffs fs (origId song) song
          ⟨[("base.ogg", audio), ("base.jpg", jacket)], [], []⟩
          song.difficulties with
      | .error e => .error e
      | .ok st =>
        match st.charts.getLast? with
        | none => .error "IndexError: list index out of range"
        | some lastChart =>
            .ok ({ idNum := i,
                   identifier := newIdOf song,
                   isDefaultAsset := true,
                   addedDate := "d" ++ toString song.date,
                   version := 0,
                   charts := st.charts,
                   lastOpenedChartPath := lastChart.chartPath,
                   fileReferences := ["base.ogg", "base.jpg"] ++ st.bgs
                     ++ chartPaths st.charts },
                 st.dir.map (fun f => ("Level/" ++ newIdOf song ++ "/" ++ f.1, f.2)))

/-- The song loop (lines 164-247): `i` starts at `level_count + 1` and is
incremented once per song. -/
def convertSongs (fs : Fs) (i : Nat) :
    List Song → Except String (List LevelRec × List (String × List Nat))
  | [] => .ok ([], [])
  | s :: rest =>
      match convertSong fs i s with
      | .error e => .error e
      | .ok (r, w) =>
          match convertSongs fs (i + 1) rest with
          | .error e => .error e
          | .ok (rs, ws) => .ok (r :: rs, w ++ ws)

/-- One step of building `level_identifiers`: create the key with an empty
list when absent, then append. -/
def addIdent (m : List (String × List String)) (k v : String) :
    List (String × List String) :=
  match m with
  | [] => [(k, [v])]
  | (k', vs) :: rest =>
      if k' = k then (k', vs ++ [v]) :: rest else (k', vs) :: addIdent rest k v

/-- The `level_identifiers` dict after the song loop: songs grouped by
`set`, each contributing `"<set>.<id>"` in iteration order. -/
def buildIdents (songs : List Song) : List (String × List String) :=
  songs.foldl (fun m s => addIdent m s.set (s.set ++ "." ++ s.id)) []

/-- A source pack-list entry. -/
structure PackSrc where
  id : String
  packParent : Option String
  nameEn : String
deriving DecidableEq, Repr

/-- A converted `Pack` record (`converted_pack`). -/
structure PackRec where
  idNum : Nat
  packName : String
  imagePath : String
  levelIdentifiers : List String
  identifier : String
  version : Nat
  fileReferences : List String
  addedDate : String
  isDefaultAsset : Bool
deriving DecidableEq, Repr

/-- The pack loop (lines 257-285): target identifier is `pack_parent` when
present; the cover `select_<id>.png` is copied (fatal if absent) except
for the `single` pack whose fixed cover is referenced but not copied;
`LevelIdentifiers` looks up the pack's own source id in
`level_identifiers` (fatal `KeyError` when absent).  `now` stands for
`int(time())` in `AddedDate`. -/
def packNewId (pk : PackSrc) : String := pk.packParent.getD pk.id

/-- Cover handling for one pack: the fixed singles cover is referenced by
name but not copied; any other cover is copied from the pack-cover root,
fatal when absent. -/
def coverFor (fs : Fs) (nid : String) :
    Except String (String × List (String × List Nat)) :=
  if nid = "single" then .ok ("folder_singles.png", [])
  else
    match lookupAL fs ("packs/songs/pack/select_" ++ nid ++ ".png") with
    | none => .error ("FileNotFoundError: packs/songs/pack/select_" ++ nid ++ ".png")
    | some cover =>
        .ok ("select_" ++ nid ++ ".png",
          [("Pack/" ++ nid ++ "/select_" ++ nid ++ ".png", cover)])

def convertPacks (fs : Fs) (idents : List (String × List String)) (now : Nat) :
    Nat → List PackSrc → Except String (List PackRec × List (String × List Nat))
  | _, [] => .ok ([], [])
  | i, pk :: rest =>
      match coverFor fs (packNewId pk) with
      | .error e => .error e
      | .ok (imageName, wf) =>
          match lookupAL idents pk.id with
          | none => .error ("KeyError: " ++ pk.id)
          | some lvls =>
              match convertPacks fs idents now (i + 1) rest with
              | .error e => .error e
              | .ok (rs, ws) =>
                  .ok ({ idNum := i,
                         packName := pk.nameEn,
                         imagePath := imageName,
                         levelIdentifiers := lvls,
                         identifier := packNewId pk,
                         version := 0,
                         fileReferences := [imageName],
                         addedDate := "d" ++ toString now,
                         isDefaultAsset := true } :: rs,
                       wf ++ ws)

/-- The working tree after all copies: later copies to the same relative
path overwrite earlier ones. -/
def buildTree (files : List (String × List Nat)) : List (String × List Nat) :=
  files.foldl (fun t f => upsert t f.1 f.2) []

/-- Everything the script hands to the catalog after a successful run:
the converted records and the content store. -/
structure PipelineOut where
  levels : List LevelRec
  packRecs : List PackRec
  fileRecs : List FileRec
  store : List (String × List Nat)
deriving DecidableEq, Repr

/-- Stages 2-4 of the script in order: convert songs (ids from
`level_count + 1`), convert packs (ids from `pack_count + 1`), move all
working files into the content store, and emit the records unchanged.
`lc`/`pc` are the counter values read once from the catalog before any
record is created. -/
def runPipeline (fs : Fs) (lc pc now : Nat) (songs : List Song)
    (packs : List PackSrc) : Except String PipelineOut :=
  match convertSongs fs (lc + 1) songs with
  | .error e => .error e
  | .ok (ls, wfL) =>
      match convertPacks fs (buildIdents songs) now (pc + 1) packs with
      | .error e => .error e
      | .ok (ps, wfP) =>
          .ok { levels := ls, packRecs := ps,
                fileRecs := (moveFiles (buildTree (wfL ++ wfP))).2,
                store := (moveFiles (buildTree (wfL ++ wfP))).1 }

/- ## Lemmas about the metadata transformation -/

lemma upsert_names_mem {t : List (String × List Nat)} {q : String}
    (p : String) (c : List Nat) (h : q ∈ t.map Prod.fst) :
    q ∈ (upsert t p c).map Prod.fst := by
  induction t with
  | nil => simp at h
  | cons f rest ih =>
      obtain ⟨k, v⟩ := f
      simp only [List.map_cons, List.mem_cons] at h
      by_cases hk : k = p
      · simp only [upsert, hk, if_true, List.map_cons, List.mem_cons]
        rcases h with h1 | h2
        · exact Or.inl (h1.trans hk)
        · exact Or.inr h2
      · simp only [upsert, hk, if_false, List.map_cons, List.mem_cons]
        rcases h with h1 | h2
        · exact Or.inl h1
        · exact Or.inr (ih h2)

lemma upsert_names_self (t : List (String × List Nat)) (p : String) (c : List Nat) :
    p ∈ (upsert t p c).map Prod.fst := by
  induction t with
  | nil => simp [upsert]
  | cons f rest ih =>
      obtain ⟨k, v⟩ := f
      by_cases hk : k = p
      · simp [upsert, hk]
      · simp only [upsert, hk, if_false, List.map_cons, List.mem_cons]
        exact Or.inr ih

lemma diffStep_ok_charts {fs : Fs} {oid : String} {song : Song} {st : SongState}
    {d : Difficulty} {st' : SongState} (h : diffStep fs oid song st d = .ok st') :
    st'.charts = st.charts ++ [mkChart song d] := by
  unfold diffStep at h
  repeat' split at h
  all_goals first
    | (cases h; rfl)
    | exact Except.noConfusion h

/-- Invariant of the difficulty loop: the copied backgrounds are distinct
and each is present in the working directory. -/
def BgInv (st : SongState) : Prop :=
  st.bgs.Nodup ∧ ∀ b ∈ st.bgs, b ∈ st.dir.map Prod.fst

/-- Inversion of one difficulty step: the chart file was found, both table
lookups succeeded, and the state is extended either without a new
background (name already in the working directory) or with one. -/
lemma diffStep_ok_cases {fs : Fs} {oid : String} {song : Song} {st : SongState}
    {d : Difficulty} {st' : SongState} (h : diffStep fs oid song st d = .ok st') :
    ∃ chartBytes,
      lookupAL fs ("charts/songs/" ++ oid ++ "/" ++ chartNameFor d) = some chartBytes
      ∧ (∃ dn, pyIndex DIFFICULTY_NAMES d.ratingClass = some dn)
      ∧ ((bgNameFor song d ∈ (upsert st.dir (chartNameFor d) chartBytes).map Prod.fst
            ∧ st' = ⟨upsert st.dir (chartNameFor d) chartBytes, st.bgs,
                st.charts ++ [mkChart song d]⟩)
         ∨ (bgNameFor song d ∉ (upsert st.dir (chartNameFor d) chartBytes).map Prod.fst
            ∧ ∃ bgBytes,
                lookupAL fs ("not_audio/img/bg/" ++ bgNameFor song d) = some bgBytes
                ∧ st' = ⟨upsert (upsert st.dir (chartNameFor d) chartBytes)
                      (bgNameFor song d) bgBytes,
                    st.bgs ++ [bgNameFor song d],
                    st.charts ++ [mkChart song d]⟩)) := by
  unfold diffStep at h
  repeat' split at h
  all_goals try exact Except.noConfusion h
  · cases h
    refine ⟨_, by assumption, ⟨_, by assumption⟩, Or.inl ⟨by assumption, rfl⟩⟩
  · cases h
    refine ⟨_, by assumption, ⟨_, by assumption⟩, Or.inr ⟨by assumption, _, by assumption, rfl⟩⟩

lemma diffStep_ok_inv {fs : Fs} {oid : String} {song : Song} {st : SongState}
    {d : Difficulty} {st' : SongState} (h : diffStep fs oid song st d = .ok st')
    (hinv : BgInv st) : BgInv st' := by
  obtain ⟨hnd, hmem⟩ := hinv
  obtain ⟨chartBytes, -, -, hcase⟩ := diffStep_ok_cases h
  rcases hcase with ⟨-, rfl⟩ | ⟨hnotin, bgBytes, -, rfl⟩
  · exact ⟨hnd, fun b hb => upsert_names_mem _ _ (hmem b hb)⟩
  · constructor
    · refine List.Nodup.append hnd (List.nodup_singleton _) ?_
      intro b hb hb'
      rcases List.mem_singleton.mp hb' with rfl
      exact hnotin (upsert_names_mem _ _ (hmem _ hb))
    · intro b hb
      rcases List.mem_append.mp hb with h1 | h2
      · exact upsert_names_mem _ _ (upsert_names_mem _ _ (hmem b h1))
      · rcases List.mem_singleton.mp h2 with rfl
        exact upsert_names_self _ _ _

lemma processDiffs_ok_charts {fs : Fs} {oid : String} {song : Song} :
    ∀ {ds : List Difficulty} {st st' : SongState},
      processDiffs fs oid song st ds = .ok st' →
      st'.charts = st.charts ++ ds.map (mkChart song) := by
  intro ds
  induction ds with
  | nil =>
      intro st st' h
      simp only [processDiffs] at h
      cases h
      simp
  | cons d rest ih =>
      intro st st' h
      simp only [processDiffs] at h
      split at h
      · exact Except.noConfusion h
      · rename_i st1 hstep
        rw [ih h, diffStep_ok_charts hstep]
        simp

lemma processDiffs_ok_inv {fs : Fs} {oid : String} {song : Song} :
    ∀ {ds : List Difficulty} {st st' : SongState},
      processDiffs fs oid song st ds = .ok st' → BgInv st → BgInv st' := by
  intro ds
  induction ds with
  | nil =>
      intro st st' h hinv
      simp only [processDiffs] at h
      cases h
      exact hinv
  | cons d rest ih =>
      intro st st' h hinv
      simp only [processDiffs] at h
      split at h
      · exact Except.noConfusion h
      · rename_i st1 hstep
        exact ih h (diffStep_ok_inv hstep hinv)

lemma convertSong_ok {fs : Fs} {i : Nat} {song : Song} {r : LevelRec}
    {wf : List (String × List Nat)} (h : convertSong fs i song = .ok (r, wf)) :
    r.idNum = i
    ∧ r.identifier = newIdOf song
    ∧ r.charts = song.difficulties.map (mkChart song)
    ∧ r.charts ≠ []
    ∧ ∃ bgs : List String, bgs.Nodup
        ∧ r.fileReferences = ["base.ogg", "base.jpg"] ++ bgs ++ chartPaths r.charts := by
  unfold convertSong at h
  cases hA : lookupAL fs ("Fallback/songs/" ++ origId song ++ "/base.ogg") with
  | none => rw [hA] at h; exact Except.noConfusion h
  | some audio =>
  rw [hA] at h
  dsimp only at h
  cases hJ : lookupAL fs ("jackets_large/songs/" ++ origId song ++ "/base.jpg") with
  | none => rw [hJ] at h; exact Except.noConfusion h
  | some jacket =>
  rw [hJ] at h
  dsimp only at h
  cases hP : processDiffs fs (origId song) song
      ⟨[("base.ogg", audio), ("base.jpg", jacket)], [], []⟩ song.difficulties with
  | error e => rw [hP] at h; exact Except.noConfusion h
  | ok st =>
  rw [hP] at h
  dsimp only at h
  cases hL : st.charts.getLast? with
  | none => rw [hL] at h; exact Except.noConfusion h
  | some lastChart =>
  rw [hL] at h
  dsimp only at h
  injection h with h2
  injection h2 with hr hw
  subst hr
  have hcharts := processDiffs_ok_charts hP
  simp only at hcharts
  have hinv : BgInv st := processDiffs_ok_inv hP ⟨List.nodup_nil, by simp⟩
  refine ⟨rfl, rfl, by simpa using hcharts, ?_, st.bgs, hinv.1, rfl⟩
  intro hnil
  simp only at hnil
  rw [hnil] at hL
  exact Option.noConfusion hL

/-- Inversion of the song loop, by position: each produced record comes
from `convertSong` applied to the song at the same position, with the
counter advanced once per song. -/
lemma convertSongs_get {fs : Fs} :
    ∀ {songs : List Song} {i : Nat} {ls : List LevelRec}
      {wf : List (String × List Nat)},
      convertSongs fs i songs = .ok (ls, wf) →
      ∀ j r, ls[j]? = some r →
        ∃ s wfs, songs[j]? = some s ∧ convertSong fs (i + j) s = .ok (r, wfs) := by
  intro songs
  induction songs with
  | nil =>
      intro i ls wf h j r hj
      simp only [convertSongs] at h
      injection h with h2
      injection h2 with hr hw
      subst hr
      simp at hj
  | cons s rest ih =>
      intro i ls wf h j r hj
      simp only [convertSongs] at h
      cases hs : convertSong fs i s with
      | error e => rw [hs] at h; exact Except.noConfusion h
      | ok rw0 =>
          obtain ⟨r0, w0⟩ := rw0
          rw [hs] at h
          dsimp only at h
          cases hrest : convertSongs fs (i + 1) rest with
          | error e => rw [hrest] at h; exact Except.noConfusion h
          | ok p =>
              obtain ⟨rs, ws⟩ := p
              rw [hrest] at h
              dsimp only at h
              injection h with h2
              injection h2 with hr hw
              subst hr
              cases j with
              | zero =>
                  simp only [List.getElem?_cons_zero] at hj
                  cases hj
                  exact ⟨s, w0, by simp, by simpa using hs⟩
              | succ j =>
                  simp only [List.getElem?_cons_succ] at hj
                  obtain ⟨s', wfs, hs', hcv⟩ := ih hrest j r hj
                  refine ⟨s', wfs, by simpa using hs', ?_⟩
                  have harith : i + (j + 1) = i + 1 + j := by omega
                  rw [harith]
                  exact hcv

/-- Inversion of the pack loop, by position. -/
lemma convertPacks_get {fs : Fs} {idents : List (String × List String)} {now : Nat} :
    ∀ {packs : List PackSrc} {i : Nat} {ps : List PackRec}
      {wf : List (String × List Nat)},
      convertPacks fs idents now i packs = .ok (ps, wf) →
      ∀ j pk, packs[j]? = some pk →
        ∃ r, ps[j]? = some r ∧ r.idNum = i + j
          ∧ lookupAL idents pk.id = some r.levelIdentifiers := by
  intro packs
  induction packs with
  | nil =>
      intro i ps wf h j pk hj
      simp at hj
  | cons pk0 rest ih =>
      intro i ps wf h j pk hj
      simp only [convertPacks] at h
      cases hc : coverFor fs (packNewId pk0) with
      | error e => rw [hc] at h; exact Except.noConfusion h
      | ok iw =>
          obtain ⟨imageName, wfc⟩ := iw
          rw [hc] at h
          dsimp only at h
          cases hl : lookupAL idents pk0.id with
          | none => rw [hl] at h; exact Except.noConfusion h
          | some lvls =>
              rw [hl] at h
              dsimp only at h
              cases hrest : convertPacks fs idents now (i + 1) rest with
              | error e => rw [hrest] at h; exact Except.noConfusion h
              | ok p =>
                  obtain ⟨rs, ws⟩ := p
                  rw [hrest] at h
                  dsimp only at h
                  injection h with h2
                  injection h2 with hr hw
                  subst hr
                  cases j with
                  | zero =>
                      simp only [List.getElem?_cons_zero] at hj
                      cases hj
                      exact ⟨⟨i, pk0.nameEn, imageName, lvls, packNewId pk0, 0, [imageName], "d" ++ toString now, true⟩, by simp, by simp, hl⟩
                  | succ j =>
                      simp only [List.getElem?_cons_succ] at hj
                      obtain ⟨r, hr', hid, hlv⟩ := ih hrest j pk hj
                      refine ⟨r, by simpa using hr', by omega, hlv⟩

lemma convertSongs_length {fs : Fs} :
    ∀ {songs : List Song} {i : Nat} {ls : List LevelRec}
      {wf : List (String × List Nat)},
      convertSongs fs i songs = .ok (ls, wf) → ls.length = songs.length := by
  intro songs
  induction songs with
  | nil =>
      intro i ls wf h
      simp only [convertSongs] at h
      injection h with h2
      injection h2 with hr hw
      subst hr
      rfl
  | cons s rest ih =>
      intro i ls wf h
      simp only [convertSongs] at h
      cases hs : convertSong fs i s with
      | error e => rw [hs] at h; exact Except.noConfusion h
      | ok rw0 =>
          obtain ⟨r0, w0⟩ := rw0
          rw [hs] at h
          dsimp only at h
          cases hrest : convertSongs fs (i + 1) rest with
          | error e => rw [hrest] at h; exact Except.noConfusion h
          | ok p =>
              obtain ⟨rs, ws⟩ := p
              rw [hrest] at h
              dsimp only at h
              injection h with h2
              injection h2 with hr hw
              subst hr
              simpa using ih hrest

lemma convertPacks_length {fs : Fs} {idents : List (String × List String)}
    {now : Nat} :
    ∀ {packs : List PackSrc} {i : Nat} {ps : List PackRec}
      {wf : List (String × List Nat)},
      convertPacks fs idents now i packs = .ok (ps, wf) →
      ps.length = packs.length := by
  intro packs
  induction packs with
  | nil =>
      intro i ps wf h
      simp only [convertPacks] at h
      injection h with h2
      injection h2 with hr hw
      subst hr
      rfl
  | cons pk0 rest ih =>
      intro i ps wf h
      simp only [convertPacks] at h
      cases hc : coverFor fs (packNewId pk0) with
      | error e => rw [hc] at h; exact Except.noConfusion h
      | ok iw =>
          obtain ⟨imageName, wfc⟩ := iw
          rw [hc] at h
          dsimp only at h
          cases hl : lookupAL idents pk0.id with
          | none => rw [hl] at h; exact Except.noConfusion h
          | some lvls =>
              rw [hl] at h
              dsimp only at h
              cases hrest : convertPacks fs idents now (i + 1) rest with
              | error e => rw [hrest] at h; exact Except.noConfusion h
              | ok p =>
                  obtain ⟨rs, ws⟩ := p
                  rw [hrest] at h
                  dsimp only at h
                  injection h with h2
                  injection h2 with hr hw
                  subst hr
                  simpa using ih hrest

/- ## Lemmas about `level_identifiers` -/

lemma lookupAL_addIdent (m : List (String × List String)) (k' v k : String) :
    lookupAL (addIdent m k' v) k =
      if k' = k then some ((lookupAL m k).getD [] ++ [v])
      else lookupAL m k := by
  induction m with
  | nil => by_cases h : k' = k <;> simp [addIdent, lookupAL, h]
  | cons f rest ih =>
      obtain ⟨k0, vs⟩ := f
      by_cases h0 : k0 = k'
      · subst h0
        by_cases hk : k0 = k
        · simp [addIdent, lookupAL, hk]
        · simp [addIdent, lookupAL, hk]
      · by_cases hk : k0 = k
        · subst hk
          have hne : ¬ (k' = k0) := fun he => h0 he.symm
          simp [addIdent, lookupAL, h0, hne]
        · simp [addIdent, lookupAL, h0, hk, ih]

lemma lookupAL_buildIdents_go :
    ∀ (songs : List Song) (m : List (String × List String)) (k : String),
      lookupAL (songs.foldl (fun m s => addIdent m s.set (s.set ++ "." ++ s.id)) m) k =
        if songs.filter (fun s => s.set = k) = [] then lookupAL m k
        else some ((lookupAL m k).getD []
          ++ (songs.filter (fun s => s.set = k)).map (fun s => s.set ++ "." ++ s.id)) := by
  intro songs
  induction songs with
  | nil => intro m k; simp
  | cons s rest ih =>
      intro m k
      simp only [List.foldl_cons]
      rw [ih]
      rw [lookupAL_addIdent]
      by_cases hs : s.set = k
      · by_cases hrest : rest.filter (fun s => s.set = k) = []
        · simp [List.filter_cons, hs, hrest]
        · simp [List.filter_cons, hs, hrest]
      · by_cases hrest : rest.filter (fun s => s.set = k) = []
        · simp [List.filter_cons, hs, hrest]
        · simp [List.filter_cons, hs, hrest]

/-- The `level_identifiers` dict maps a key to exactly the `"<set>.<id>"`
identifiers of the songs whose `set` equals that key, in iteration order;
keys with no songs are absent (looking them up is a `KeyError`). -/
lemma lookupAL_buildIdents (songs : List Song) (k : String) :
    lookupAL (buildIdents songs) k =
      if songs.filter (fun s => s.set = k) = [] then none
      else some ((songs.filter (fun s => s.set = k)).map
        (fun s => s.set ++ "." ++ s.id)) := by
  unfold buildIdents
  rw [lookupAL_buildIdents_go]
  by_cases h : songs.filter (fun s => s.set = k) = [] <;> simp [h, lookupAL]

/- ## Out-of-range rating classes -/

lemma pyIndex_len4_none {α : Type} {l : List α} (hlen : l.length = 4) {i : Int}
    (h : 4 ≤ i ∨ i < -4) : pyIndex l i = none := by
  simp only [pyIndex, hlen]
  rw [if_neg]
  intro hcond
  obtain ⟨h0, h4⟩ := hcond
  by_cases hi : i < 0
  · rw [if_pos hi] at h0 h4
    omega
  · rw [if_neg hi] at h0 h4
    omega

lemma diffStep_bad_rc {fs : Fs} {oid : String} {song : Song} {st : SongState}
    {d : Difficulty} (hrc : 4 ≤ d.ratingClass ∨ d.ratingClass < -4)
    (st' : SongState) : diffStep fs oid song st d ≠ .ok st' := by
  intro hok
  obtain ⟨cb, -, ⟨dn, hdn⟩, -⟩ := diffStep_ok_cases hok
  have hnone : pyIndex DIFFICULTY_NAMES d.ratingClass = none :=
    pyIndex_len4_none (show DIFFICULTY_NAMES.length = 4 from rfl) hrc
  rw [hnone] at hdn
  exact Option.noConfusion hdn

lemma processDiffs_bad_rc {fs : Fs} {oid : String} {song : Song} {d : Difficulty}
    (hrc : 4 ≤ d.ratingClass ∨ d.ratingClass < -4) :
    ∀ {ds : List Difficulty}, d ∈ ds → ∀ {st st' : SongState},
      processDiffs fs oid song st ds ≠ .ok st' := by
  intro ds
  induction ds with
  | nil => intro hmem; simp at hmem
  | cons d0 rest ih =>
      intro hmem st st' hok
      simp only [processDiffs] at hok
      cases hd0 : diffStep fs oid song st d0 with
      | error e => rw [hd0] at hok; exact Except.noConfusion hok
      | ok st1 =>
          rw [hd0] at hok
          dsimp only at hok
          rcases List.mem_cons.mp hmem with rfl | hmem2
          · exact diffStep_bad_rc hrc st1 hd0
          · exact ih hmem2 hok

lemma convertSong_bad_rc {fs : Fs} {i : Nat} {song : Song} {d : Difficulty}
    (hd : d ∈ song.difficulties)
    (hrc : 4 ≤ d.ratingClass ∨ d.ratingClass < -4) :
    ∀ r wf, convertSong fs i song ≠ .ok (r, wf) := by
  intro r wf h
  unfold convertSong at h
  cases hA : lookupAL fs ("Fallback/songs/" ++ origId song ++ "/base.ogg") with
  | none => rw [hA] at h; exact Except.noConfusion h
  | some audio =>
  rw [hA] at h
  dsimp only at h
  cases hJ : lookupAL fs ("jackets_large/songs/" ++ origId song ++ "/base.jpg") with
  | none => rw [hJ] at h; exact Except.noConfusion h
  | some jacket =>
  rw [hJ] at h
  dsimp only at h
  cases hP : processDiffs fs (origId song) song
      ⟨[("base.ogg", audio), ("base.jpg", jacket)], [], []⟩ song.difficulties with
  | error e => rw [hP] at h; exact Except.noConfusion h
  | ok st => exact processDiffs_bad_rc hrc hd hP

/- ## Pipeline-level lemmas -/

/-- Inversion of a successful run: the emitted level and pack records are
exactly the untouched outputs of the two conversion loops, and the store
and `File` records come from `moveFiles` over the merged working tree. -/
lemma runPipeline_ok {fs : Fs} {lc pc now : Nat} {songs : List Song}
    {packs : List PackSrc} {out : PipelineOut}
    (h : runPipeline fs lc pc now songs packs = .ok out) :
    ∃ ls wfL ps wfP,
      convertSongs fs (lc + 1) songs = .ok (ls, wfL)
      ∧ convertPacks fs (buildIdents songs) now (pc + 1) packs = .ok (ps, wfP)
      ∧ out = { levels := ls, packRecs := ps,
                fileRecs := (moveFiles (buildTree (wfL ++ wfP))).2,
                store := (moveFiles (buildTree (wfL ++ wfP))).1 } := by
  unfold runPipeline at h
  cases hS : convertSongs fs (lc + 1) songs with
  | error e => rw [hS] at h; exact Except.noConfusion h
  | ok p =>
      obtain ⟨ls, wfL⟩ := p
      rw [hS] at h
      dsimp only at h
      cases hP : convertPacks fs (buildIdents songs) now (pc + 1) packs with
      | error e => rw [hP] at h; exact Except.noConfusion h
      | ok q =>
          obtain ⟨ps, wfP⟩ := q
          rw [hP] at h
          dsimp only at h
          injection h with h2
          exact ⟨ls, wfL, ps, wfP, rfl, rfl, h2.symm⟩

/-- The level records of a pipeline result (`[]` for an aborted run). -/
def pipeLevels (x : Except String PipelineOut) : List LevelRec :=
  match x with
  | .ok o => o.levels
  | .error _ => []

/-- The stored names of the content store of a pipeline result. -/
def pipeStoreNames (x : Except String PipelineOut) : List String :=
  match x with
  | .ok o => o.store.map Prod.fst
  | .error _ => []

/-- All file references of a list of level records. -/
def levelRefs (ls : List LevelRec) : List String :=
  (ls.map (fun l => l.fileReferences)).flatten

lemma pipeStoreNames_long {fs : Fs} {lc pc now : Nat} {songs : List Song}
    {packs : List PackSrc} {n : String}
    (h : n ∈ pipeStoreNames (runPipeline fs lc pc now songs packs)) :
    40 ≤ n.length := by
  unfold pipeStoreNames at h
  cases hrp : runPipeline fs lc pc now songs packs with
  | error e => rw [hrp] at h; simp at h
  | ok o =>
      rw [hrp] at h
      dsimp only at h
      obtain ⟨ls, wfL, ps, wfP, -, -, hout⟩ := runPipeline_ok hrp
      subst hout
      exact moveFiles_names_long h

/-- The `File` records produced for a list of working files, in order. -/
def mkFileRecs (files : List (String × List Nat)) : List FileRec :=
  files.map (fun f => mkFileRec f.1 f.2)

lemma moveFiles_recs (files : List (String × List Nat)) :
    (moveFiles files).2 = mkFileRecs files := by
  unfold moveFiles mkFileRecs
  rw [moveFilesAux_recs]
  simp

lemma pipeLevels_runPipeline {fs : Fs} {lc pc now : Nat} {songs : List Song}
    {packs : List PackSrc} {ls : List LevelRec} {wfL : List (String × List Nat)}
    {ps : List PackRec} {wfP : List (String × List Nat)}
    (h1 : convertSongs fs (lc + 1) songs = .ok (ls, wfL))
    (h2 : convertPacks fs (buildIdents songs) now (pc + 1) packs = .ok (ps, wfP)) :
    pipeLevels (runPipeline fs lc pc now songs packs) = ls := by
  unfold pipeLevels runPipeline
  rw [h1]
  dsimp only
  rw [h2]

/- ## Concrete fixtures and total projections used by witnesses -/

def dummyChart : Chart := ⟨"", "", "", 0, "", "", "", "", "", 0, "", none, false, none, ""⟩

def dummyLevel : LevelRec := ⟨0, "", false, "", 0, [], "", []⟩

def dummyPack : PackRec := ⟨0, "", "", [], "", 0, [], "", false⟩

def dummyDiff : Difficulty := ⟨0, 0, "", ""⟩

def okLevelOf (x : Except String (LevelRec × List (String × List Nat))) : LevelRec :=
  match x with
  | .ok rw => rw.1
  | .error _ => dummyLevel

def okWfOf (x : Except String (LevelRec × List (String × List Nat))) :
    List (String × List Nat) :=
  match x with
  | .ok rw => rw.2
  | .error _ => []

def okLevelsOf (x : Except String (List LevelRec × List (String × List Nat))) :
    List LevelRec :=
  match x with
  | .ok rw => rw.1
  | .error _ => []

def okWfsOf (x : Except String (List LevelRec × List (String × List Nat))) :
    List (String × List Nat) :=
  match x with
  | .ok rw => rw.2
  | .error _ => []

def okPacksOf (x : Except String (List PackRec × List (String × List Nat))) :
    List PackRec :=
  match x with
  | .ok rw => rw.1
  | .error _ => []

def okPackWfOf (x : Except String (List PackRec × List (String × List Nat))) :
    List (String × List Nat) :=
  match x with
  | .ok rw => rw.2
  | .error _ => []

/-- The `Difficulty` strings of a level's charts. -/
def chartDiffs (r : LevelRec) : List String :=
  r.charts.map (fun c => c.difficulty)

/-- The `BackgroundPath` strings of a level's charts. -/
def chartBgsOf (r : LevelRec) : List String :=
  r.charts.map (fun c => c.backgroundPath)

/-- The rating classes of a song's difficulties. -/
def ratingClassesOf (s : Song) : List Int :=
  s.difficulties.map (fun d => d.ratingClass)

/-- The source songs whose `set` equals a given key. -/
def songsWithSet (songs : List Song) (k : String) : List Song :=
  songs.filter (fun s => s.set = k)

/-- The `"<set>.<id>"` identifiers of a list of songs, in order. -/
def newIds (songs : List Song) : List String :=
  songs.map (fun s => s.set ++ "." ++ s.id)

/-- Fixture: the source tree for one song (`s1` in set `p1`, two
difficulties with rating classes 0 and 3) and one pack `p1`. -/
def fixtureFs : Fs := [
  ("Fallback/songs/s1/base.ogg", [1, 2, 3]),
  ("jackets_large/songs/s1/base.jpg", [4, 5]),
  ("charts/songs/s1/0.aff", [6]),
  ("charts/songs/s1/3.aff", [9]),
  ("not_audio/img/bg/base_conflict.jpg", [7, 8]),
  ("not_audio/img/bg/byd_conflict.jpg", [7, 9]),
  ("packs/songs/pack/select_p1.png", [11, 12])]

def fixtureSong : Song :=
  { id := "s1", set := "p1", date := 20200101, bpm := "120-140", bpmBase := 120,
    side := 1, bg := "", titleEn := "T", artist := "A", remoteDl := false,
    difficulties := [⟨0, 2, "c", "j"⟩, ⟨3, 9, "c", "j"⟩] }

def fixturePack : PackSrc := ⟨"p1", none, "P"⟩

/- ## Claim theorems -/

/-- Claim C2: for every (pack, index) pair, processed in lexicographically
sorted order of pack filename (the model's `allWrites` sorts the packs),
and for every entry of every group, the extractor writes exactly the bytes
`pack[Offset : Offset+Length]` verbatim to
`<group.Name>/<entry.OriginalFilename>` under the staging root: the
extracted file's byte length equals the index `Length` field, and the
staged tree holds at every path the bytes of the last write to it, so a
path written once holds exactly its entry's byte range. -/
theorem c2_extraction (packs : List PackFile) (p : PackFile) (g : PackGroup)
    (e : PackEntry) (hp : p ∈ packs) (hg : g ∈ p.index.groups)
    (he : e ∈ g.orderedEntries) (hb : e.offset + e.length ≤ p.bytes.length) :
    entryWrite p.bytes g e
      = (g.name ++ "/" ++ e.originalFilename, (p.bytes.drop e.offset).take e.length)
    ∧ ((p.bytes.drop e.offset).take e.length).length = e.length
    ∧ entryWrite p.bytes g e ∈ allWrites packs
    ∧ extractAll packs (g.name ++ "/" ++ e.originalFilename)
      = lastWrite (allWrites packs) (g.name ++ "/" ++ e.originalFilename) := by
  refine ⟨rfl, ?_, mem_allWrites hp (mem_packWrites hg he), ?_⟩
  · rw [List.length_take, List.length_drop]
    omega
  · rw [extractAll_eq_lastWrite]
    cases lastWrite (allWrites packs) (g.name ++ "/" ++ e.originalFilename) <;> rfl

def wEntry : PackEntry := ⟨"f", 1, 2⟩

def wGroup : PackGroup := ⟨"g", [wEntry]⟩

def wPack : PackFile := ⟨"a.pack", [0, 1, 2, 3], ⟨[wGroup]⟩⟩

/-- Witness for C2 at a concrete one-entry pack. -/
theorem c2_extraction_witness :
    (wPack ∈ [wPack] ∧ wGroup ∈ wPack.index.groups ∧ wEntry ∈ wGroup.orderedEntries
      ∧ wEntry.offset + wEntry.length ≤ wPack.bytes.length)
    ∧ (entryWrite wPack.bytes wGroup wEntry
        = (wGroup.name ++ "/" ++ wEntry.originalFilename,
           (wPack.bytes.drop wEntry.offset).take wEntry.length)
       ∧ ((wPack.bytes.drop wEntry.offset).take wEntry.length).length = wEntry.length
       ∧ entryWrite wPack.bytes wGroup wEntry ∈ allWrites [wPack]
       ∧ extractAll [wPack] (wGroup.name ++ "/" ++ wEntry.originalFilename)
          = lastWrite (allWrites [wPack]) (wGroup.name ++ "/" ++ wEntry.originalFilename)) :=
  ⟨⟨by decide, by decide, by decide, by decide⟩,
   c2_extraction [wPack] wPack wGroup wEntry (by decide) (by decide) (by decide)
     (by decide)⟩

def c3entry : PackEntry := ⟨"f", 2, 5⟩

def c3group : PackGroup := ⟨"g", [c3entry]⟩

def c3pack : PackFile := ⟨"a.pack", [0, 1, 2, 3], ⟨[c3group]⟩⟩

/-- Claim C3 counterexample: an entry whose `Offset + Length` exceeds the
pack's byte length does not abort the run.  `pack.read` clamps at end of
file, so the extractor silently writes a truncated file: the 4-byte pack
with an entry `Offset 2, Length 5` yields a staged file of 2 bytes, not a
fatal error. -/
theorem c3_counterexample :
    c3pack.bytes.length < c3entry.offset + c3entry.length
    ∧ extractAll [c3pack] "g/f" = some [2, 3]
    ∧ ((extractAll [c3pack] "g/f").getD []).length = 2
    ∧ c3entry.length = 5 := by decide

/-- Claim C3 amended: an index entry whose `Offset + Length` exceeds the
pack's byte length is not fatal; the extractor writes the available bytes
`pack[Offset : packLength]` (empty when `Offset ≥ packLength`), a file of
`packLength - Offset` bytes with no padding, and the run continues. -/
theorem c3_amended (packs : List PackFile) (p : PackFile) (g : PackGroup)
    (e : PackEntry) (hp : p ∈ packs) (hg : g ∈ p.index.groups)
    (he : e ∈ g.orderedEntries) (hover : p.bytes.length < e.offset + e.length) :
    entryWrite p.bytes g e ∈ allWrites packs
    ∧ (entryWrite p.bytes g e).2 = p.bytes.drop e.offset
    ∧ (entryWrite p.bytes g e).2.length = p.bytes.length - e.offset := by
  refine ⟨mem_allWrites hp (mem_packWrites hg he), ?_, ?_⟩
  · show (p.bytes.drop e.offset).take e.length = p.bytes.drop e.offset
    apply List.take_of_length_le
    rw [List.length_drop]
    omega
  · show ((p.bytes.drop e.offset).take e.length).length = _
    rw [List.length_take, List.length_drop]
    omega

/-- Witness for the amended C3 at the concrete out-of-range entry. -/
theorem c3_amended_witness :
    (c3pack ∈ [c3pack] ∧ c3group ∈ c3pack.index.groups
      ∧ c3entry ∈ c3group.orderedEntries
      ∧ c3pack.bytes.length < c3entry.offset + c3entry.length)
    ∧ (entryWrite c3pack.bytes c3group c3entry ∈ allWrites [c3pack]
       ∧ (entryWrite c3pack.bytes c3group c3entry).2 = c3pack.bytes.drop c3entry.offset
       ∧ (entryWrite c3pack.bytes c3group c3entry).2.length
          = c3pack.bytes.length - c3entry.offset) :=
  ⟨⟨by decide, by decide, by decide, by decide⟩,
   c3_amended [c3pack] c3pack c3group c3entry (by decide) (by decide) (by decide)
     (by decide)⟩

/-- Claim C6: the stored name is a pure function of the byte contents plus
the original extension (`sha1` hex digest ++ suffix), so two paths with
the same suffix and identical bytes get the same stored name; adding the
same content twice leaves the store unchanged beyond the first add (the
duplicate is dropped, the existing stored file kept). -/
theorem c6_store (store : List (String × List Nat)) (p1 p2 : String)
    (c : List Nat) (hsuf : pySuffix p1 = pySuffix p2) :
    storedName c p1 = storedName c p2
    ∧ storedName c p1 ∈ (storeAdd store p1 c).map Prod.fst
    ∧ storeAdd (storeAdd store p1 c) p2 c = storeAdd store p1 c := by
  have heq : storedName c p1 = storedName c p2 := by
    unfold storedName
    rw [hsuf]
  have hmem : storedName c p1 ∈ (storeAdd store p1 c).map Prod.fst := by
    unfold storeAdd
    by_cases hm : storedName c p1 ∈ store.map Prod.fst
    · rw [if_pos hm]
      exact hm
    · rw [if_neg hm, List.map_append]
      exact List.mem_append.mpr (Or.inr (by simp))
  refine ⟨heq, hmem, ?_⟩
  have hm2 : storedName c p2 ∈ (storeAdd store p1 c).map Prod.fst := heq ▸ hmem
  have hdef : storeAdd (storeAdd store p1 c) p2 c
      = if storedName c p2 ∈ (storeAdd store p1 c).map Prod.fst
        then storeAdd store p1 c
        else storeAdd store p1 c ++ [(storedName c p2, c)] := rfl
  rw [hdef, if_pos hm2]

/-- Witness for C6: identical bytes under two different names with the
same extension. -/
theorem c6_store_witness :
    (pySuffix "a.ogg" = pySuffix "b.ogg")
    ∧ (storedName [1, 2] "a.ogg" = storedName [1, 2] "b.ogg"
       ∧ storedName [1, 2] "a.ogg" ∈ (storeAdd [] "a.ogg" [1, 2]).map Prod.fst
       ∧ storeAdd (storeAdd [] "a.ogg" [1, 2]) "b.ogg" [1, 2]
          = storeAdd [] "a.ogg" [1, 2]) :=
  ⟨by decide, c6_store [] "a.ogg" "b.ogg" [1, 2] (by decide)⟩

/-- Claim C4: one record per source entry, ids strictly increasing by one
in iteration order: the `j`-th level record has id `levelCount + 1 + j`
(the counter is read once, before any record is created, and enters only
as the starting value), the `j`-th pack record has id `packCount + 1 + j`,
and hence all level ids are distinct and all pack ids are distinct within
one run. -/
theorem c4_ids (fs : Fs) (now lc pc : Nat) (songs : List Song)
    (packs : List PackSrc) (ls : List LevelRec) (wfL : List (String × List Nat))
    (ps : List PackRec) (wfP : List (String × List Nat))
    (h1 : convertSongs fs (lc + 1) songs = .ok (ls, wfL))
    (h2 : convertPacks fs (buildIdents songs) now (pc + 1) packs = .ok (ps, wfP)) :
    ls.length = songs.length
    ∧ ps.length = packs.length
    ∧ (∀ (j : Nat) (r : LevelRec), ls[j]? = some r → r.idNum = lc + 1 + j)
    ∧ (∀ (j : Nat) (r : PackRec), ps[j]? = some r → r.idNum = pc + 1 + j)
    ∧ (∀ (j k : Nat) (rj rk : LevelRec), ls[j]? = some rj → ls[k]? = some rk →
        j ≠ k → rj.idNum ≠ rk.idNum)
    ∧ (∀ (j k : Nat) (rj rk : PackRec), ps[j]? = some rj → ps[k]? = some rk →
        j ≠ k → rj.idNum ≠ rk.idNum) := by
  have hlevel : ∀ j r, ls[j]? = some r → r.idNum = lc + 1 + j := by
    intro j r hj
    obtain ⟨s, wfs, -, hcv⟩ := convertSongs_get h1 j r hj
    exact (convertSong_ok hcv).1
  have hpack : ∀ j r, ps[j]? = some r → r.idNum = pc + 1 + j := by
    intro j r hj
    have hlen := convertPacks_length h2
    have hjlt : j < ps.length := by
      by_contra hge
      rw [List.getElem?_eq_none (by omega)] at hj
      exact Option.noConfusion hj
    have hjp : j < packs.length := by omega
    obtain ⟨r', hr', hid, -⟩ := convertPacks_get h2 j packs[j]
      (List.getElem?_eq_getElem hjp)
    rw [hj] at hr'
    injection hr' with hrr
    rw [← hrr] at hid
    exact hid
  refine ⟨convertSongs_length h1, convertPacks_length h2, hlevel, hpack, ?_, ?_⟩
  · intro j k rj rk hj hk hne
    rw [hlevel j rj hj, hlevel k rk hk]
    omega
  · intro j k rj rk hj hk hne
    rw [hpack j rj hj, hpack k rk hk]
    omega

def c4sRun : Except String (List LevelRec × List (String × List Nat)) :=
  convertSongs fixtureFs (0 + 1) [fixtureSong]

def c4pRun : Except String (List PackRec × List (String × List Nat)) :=
  convertPacks fixtureFs (buildIdents [fixtureSong]) 9 (0 + 1) [fixturePack]

/-- Witness for C4 at the one-song, one-pack fixture with both counters 0. -/
theorem c4_ids_witness :
    (convertSongs fixtureFs (0 + 1) [fixtureSong] = .ok (okLevelsOf c4sRun, okWfsOf c4sRun)
      ∧ convertPacks fixtureFs (buildIdents [fixtureSong]) 9 (0 + 1) [fixturePack]
         = .ok (okPacksOf c4pRun, okPackWfOf c4pRun))
    ∧ ((okLevelsOf c4sRun)[0]? = some ((okLevelsOf c4sRun).headD dummyLevel)
       ∧ ((okLevelsOf c4sRun).headD dummyLevel).idNum = 0 + 1 + 0
       ∧ (okPacksOf c4pRun)[0]? = some ((okPacksOf c4pRun).headD dummyPack)
       ∧ ((okPacksOf c4pRun).headD dummyPack).idNum = 0 + 1 + 0) :=
  ⟨⟨rfl, rfl⟩,
   ⟨by decide,
    (c4_ids fixtureFs 9 0 0 [fixtureSong] [fixturePack] _ _ _ _ rfl rfl).2.2.1 0
      ((okLevelsOf c4sRun).headD dummyLevel) (by decide),
    by decide,
    (c4_ids fixtureFs 9 0 0 [fixtureSong] [fixturePack] _ _ _ _ rfl rfl).2.2.2.1 0
      ((okPacksOf c4pRun).headD dummyPack) (by decide)⟩⟩

/-- Claim C5: every generated pack record's `levelIdentifiers` is exactly
the list of `"<set>.<id>"` identifiers of the source songs whose `set`
equals that pack's own source id (not the resolved parent identifier),
and a successful pack conversion requires every pack's source id to have
at least one associated song (a pack with none hits a fatal `KeyError`). -/
theorem c5_levelIdentifiers (fs : Fs) (now pc : Nat) (songs : List Song)
    (packs : List PackSrc) (ps : List PackRec) (wfP : List (String × List Nat))
    (h : convertPacks fs (buildIdents songs) now (pc + 1) packs = .ok (ps, wfP)) :
    (∀ (j : Nat) (pk : PackSrc) (r : PackRec), packs[j]? = some pk →
      ps[j]? = some r → r.levelIdentifiers = newIds (songsWithSet songs pk.id))
    ∧ (∀ pk : PackSrc, pk ∈ packs → songsWithSet songs pk.id ≠ []) := by
  constructor
  · intro j pk r hpk hr
    obtain ⟨r', hr', -, hlook⟩ := convertPacks_get h j pk hpk
    rw [hr] at hr'
    injection hr' with hrr
    subst hrr
    rw [lookupAL_buildIdents] at hlook
    by_cases hf : songs.filter (fun s => s.set = pk.id) = []
    · rw [if_pos hf] at hlook
      exact Option.noConfusion hlook
    · rw [if_neg hf] at hlook
      injection hlook with h3
      unfold newIds songsWithSet
      exact h3.symm
  · intro pk hmem hf
    obtain ⟨j, hj⟩ := List.getElem?_of_mem hmem
    obtain ⟨r, -, -, hlook⟩ := convertPacks_get h j pk hj
    rw [lookupAL_buildIdents] at hlook
    unfold songsWithSet at hf
    rw [if_pos hf] at hlook
    exact Option.noConfusion hlook

def c5pRun : Except String (List PackRec × List (String × List Nat)) :=
  convertPacks fixtureFs (buildIdents [fixtureSong]) 9 (0 + 1) [fixturePack]

/-- Witness for C5: the fixture pack `p1` receives exactly `["p1.s1"]`. -/
theorem c5_levelIdentifiers_witness :
    (convertPacks fixtureFs (buildIdents [fixtureSong]) 9 (0 + 1) [fixturePack]
      = .ok (okPacksOf c5pRun, okPackWfOf c5pRun))
    ∧ ([fixturePack][0]? = some fixturePack
       ∧ (okPacksOf c5pRun)[0]? = some ((okPacksOf c5pRun).headD dummyPack)
       ∧ ((okPacksOf c5pRun).headD dummyPack).levelIdentifiers
          = newIds (songsWithSet [fixtureSong] fixturePack.id)
       ∧ ((okPacksOf c5pRun).headD dummyPack).levelIdentifiers = ["p1.s1"]) :=
  ⟨rfl,
   ⟨by decide, by decide,
    (c5_levelIdentifiers fixtureFs 9 0 [fixtureSong] [fixturePack] _ _ rfl).1 0
      fixturePack ((okPacksOf c5pRun).headD dummyPack) (by decide) (by decide),
    by decide⟩⟩

def c7Fs : Fs := [
  ("Fallback/songs/s1/base.ogg", [1, 2, 3]),
  ("jackets_large/songs/s1/base.jpg", [4, 5]),
  ("charts/songs/s1/-1.aff", [10]),
  ("not_audio/img/bg/base_light.jpg", [7, 8])]

def c7song : Song :=
  { id := "s1", set := "p1", date := 20200101, bpm := "120", bpmBase := 120,
    side := 0, bg := "", titleEn := "T", artist := "A", remoteDl := false,
    difficulties := [⟨-1, 9, "c", "j"⟩] }

/-- Claim C7 counterexample: a rating class of `-1` is outside
`{0, 1, 2, 3}`, yet the conversion does not abort: Python's negative
indexing makes `DIFFICULTY_NAMES[-1]` resolve to `Beyond`, so a song
whose only difficulty has rating class `-1` (with its chart file
`-1.aff` present) converts successfully with difficulty `"Beyond 9"`. -/
theorem c7_counterexample :
    ratingClassesOf c7song = [-1]
    ∧ convertSong c7Fs 1 c7song
       = .ok (okLevelOf (convertSong c7Fs 1 c7song), okWfOf (convertSong c7Fs 1 c7song))
    ∧ chartDiffs (okLevelOf (convertSong c7Fs 1 c7song)) = ["Beyond 9"] :=
  ⟨by decide, rfl, by decide⟩

/-- Claim C7 amended: a rating class at or above 4, or strictly below -4,
is out of range for the 4-entry difficulty tables for every Python
indexing mode and makes the song conversion fail fatally (either the
chart copy `"<rc>.aff"` fails first or the table lookup raises
`IndexError`); rating classes `-4..-1` index the table from the end and
do not abort, and no side value is used in a fallible table lookup. -/
theorem c7_amended (fs : Fs) (i : Nat) (song : Song) (d : Difficulty)
    (hd : d ∈ song.difficulties)
    (hrc : 4 ≤ d.ratingClass ∨ d.ratingClass < -4) :
    ∀ r wf, convertSong fs i song ≠ .ok (r, wf) :=
  convertSong_bad_rc hd hrc

def c7badDiff : Difficulty := ⟨4, 9, "c", "j"⟩

def c7badSong : Song :=
  { id := "s1", set := "p1", date := 20200101, bpm := "120", bpmBase := 120,
    side := 0, bg := "", titleEn := "T", artist := "A", remoteDl := false,
    difficulties := [c7badDiff] }

/-- Witness for the amended C7: rating class 4 never converts. -/
theorem c7_amended_witness :
    (c7badDiff ∈ c7badSong.difficulties
      ∧ (4 ≤ c7badDiff.ratingClass ∨ c7badDiff.ratingClass < -4))
    ∧ convertSong fixtureFs 1 c7badSong ≠ .ok (dummyLevel, []) :=
  ⟨⟨by decide, by decide⟩,
   c7_amended fixtureFs 1 c7badSong c7badDiff (by decide) (by decide) dummyLevel []⟩

/-- Claim C8: per difficulty, an explicit non-empty background key selects
`"<key>.jpg"` for every difficulty; otherwise the default combines
`"byd_"` (rating class 3) or `"base_"` with `"light"` (side 0) or
`"conflict"` (any other side), plus `".jpg"`.  Each distinct background is
copied only once — the copied-background block of `fileReferences` has no
duplicates — while every chart still records its background path. -/
theorem c8_background (fs : Fs) (i : Nat) (song : Song) (r : LevelRec)
    (wf : List (String × List Nat)) (h : convertSong fs i song = .ok (r, wf)) :
    (∀ (j : Nat) (d : Difficulty) (ch : Chart), song.difficulties[j]? = some d →
      r.charts[j]? = some ch →
      ch.backgroundPath =
        (if song.bg ≠ "" then song.bg ++ ".jpg"
         else (if d.ratingClass = 3 then "byd" else "base") ++ "_"
           ++ (if song.side = 0 then "light" else "conflict") ++ ".jpg"))
    ∧ (∃ bgs : List String, bgs.Nodup
        ∧ r.fileReferences = ["base.ogg", "base.jpg"] ++ bgs ++ chartPaths r.charts) := by
  obtain ⟨-, -, hcharts, -, hbgs⟩ := convertSong_ok h
  refine ⟨?_, hbgs⟩
  intro j d ch hd hch
  rw [hcharts, List.getElem?_map, hd] at hch
  have hch2 : mkChart song d = ch := by simpa using hch
  rw [← hch2]
  rfl

def c8run : Except String (LevelRec × List (String × List Nat)) :=
  convertSong fixtureFs 1 fixtureSong

/-- Witness for C8: `bg = ""`, `side = 1`; rating class 0 resolves
`base_conflict.jpg` and rating class 3 resolves `byd_conflict.jpg`. -/
theorem c8_background_witness :
    (convertSong fixtureFs 1 fixtureSong = .ok (okLevelOf c8run, okWfOf c8run))
    ∧ (fixtureSong.difficulties[1]? = some (fixtureSong.difficulties.getD 1 dummyDiff)
       ∧ (okLevelOf c8run).charts[1]? = some ((okLevelOf c8run).charts.getD 1 dummyChart)
       ∧ ((okLevelOf c8run).charts.getD 1 dummyChart).backgroundPath =
          (if fixtureSong.bg ≠ "" then fixtureSong.bg ++ ".jpg"
           else (if (fixtureSong.difficulties.getD 1 dummyDiff).ratingClass = 3
               then "byd" else "base") ++ "_"
             ++ (if fixtureSong.side = 0 then "light" else "conflict") ++ ".jpg")
       ∧ chartBgsOf (okLevelOf c8run) = ["base_conflict.jpg", "byd_conflict.jpg"]) :=
  ⟨rfl,
   ⟨by decide, by decide,
    (c8_background fixtureFs 1 fixtureSong _ _ rfl).1 1
      (fixtureSong.difficulties.getD 1 dummyDiff)
      ((okLevelOf c8run).charts.getD 1 dummyChart) (by decide) (by decide),
    by decide⟩⟩

/-- Claim C9: per chart, `SyncBaseBpm` is exactly whether the song's bpm
string equals the stringified base bpm; a synced chart carries no
display-bpm field, an unsynced one carries the bpm string with spaces
stripped and every hyphen normalized to `" - "`. -/
theorem c9_bpm (fs : Fs) (i : Nat) (song : Song) (r : LevelRec)
    (wf : List (String × List Nat)) (h : convertSong fs i song = .ok (r, wf)) :
    ∀ ch : Chart, ch ∈ r.charts →
      ch.syncBaseBpm = (song.bpm == toString song.bpmBase)
      ∧ (song.bpm = toString song.bpmBase → ch.bpmText = none)
      ∧ (song.bpm ≠ toString song.bpmBase →
          ch.bpmText = some (pyReplace (pyReplace song.bpm " " "") "-" " - ")) := by
  obtain ⟨-, -, hcharts, -, -⟩ := convertSong_ok h
  intro ch hch
  rw [hcharts] at hch
  obtain ⟨d, -, rfl⟩ := List.mem_map.mp hch
  refine ⟨rfl, ?_, ?_⟩
  · intro he
    show (if song.bpm == toString song.bpmBase then none
      else some (pyReplace (pyReplace song.bpm " " "") "-" " - ")) = none
    rw [if_pos]
    exact (beq_iff_eq).mpr he
  · intro hne
    show (if song.bpm == toString song.bpmBase then none
      else some (pyReplace (pyReplace song.bpm " " "") "-" " - ")) = some _
    rw [if_neg]
    intro hbeq
    exact hne ((beq_iff_eq).mp hbeq)

def c9run : Except String (LevelRec × List (String × List Nat)) :=
  convertSong fixtureFs 1 fixtureSong

/-- Witness for C9: `bpm = "120-140"`, `bpm_base = 120` yields an unsynced
chart with display string `"120 - 140"`. -/
theorem c9_bpm_witness :
    (convertSong fixtureFs 1 fixtureSong = .ok (okLevelOf c9run, okWfOf c9run))
    ∧ ((okLevelOf c9run).charts.headD dummyChart ∈ (okLevelOf c9run).charts
       ∧ ((okLevelOf c9run).charts.headD dummyChart).syncBaseBpm
          = (fixtureSong.bpm == toString fixtureSong.bpmBase)
       ∧ ((okLevelOf c9run).charts.headD dummyChart).syncBaseBpm = false
       ∧ ((okLevelOf c9run).charts.headD dummyChart).bpmText = some "120 - 140") :=
  ⟨rfl,
   ⟨by decide,
    ((c9_bpm fixtureFs 1 fixtureSong _ _ rfl) ((okLevelOf c9run).charts.headD dummyChart)
      (by decide)).1,
    by decide, by decide⟩⟩

/-- Claim C10: the per-song conversion reads `charts[-1]`, so it is only
defined for songs with at least one difficulty: a song with an empty
difficulties list fails with an indexing error instead of producing a
record with zero charts, and every level record an ok run emits has a
non-empty chart list. -/
theorem c10_nonempty (fs : Fs) (i : Nat) (song : Song) (lc : Nat)
    (songs : List Song) :
    (∀ (r : LevelRec) (wf : List (String × List Nat)),
      convertSong fs i song = .ok (r, wf) → r.charts ≠ [])
    ∧ (song.difficulties = [] → ∀ (r : LevelRec) (wf : List (String × List Nat)),
        convertSong fs i song ≠ .ok (r, wf))
    ∧ (∀ (ls : List LevelRec) (wfL : List (String × List Nat)) (lvl : LevelRec),
        convertSongs fs lc songs = .ok (ls, wfL) → lvl ∈ ls → lvl.charts ≠ []) := by
  refine ⟨?_, ?_, ?_⟩
  · intro r wf h
    exact (convertSong_ok h).2.2.2.1
  · intro hnil r wf h
    obtain ⟨-, -, hcharts, hne, -⟩ := convertSong_ok h
    rw [hnil] at hcharts
    exact hne (by simpa using hcharts)
  · intro ls wfL lvl h hmem
    obtain ⟨j, hj⟩ := List.getElem?_of_mem hmem
    obtain ⟨s, wfs, -, hcv⟩ := convertSongs_get h j lvl hj
    exact (convertSong_ok hcv).2.2.2.1

def c10run : Except String (LevelRec × List (String × List Nat)) :=
  convertSong fixtureFs 1 fixtureSong

def c10emptySong : Song :=
  { id := "s1", set := "p1", date := 20200101, bpm := "120", bpmBase := 120,
    side := 0, bg := "", titleEn := "T", artist := "A", remoteDl := false,
    difficulties := [] }

/-- Witness for C10: the fixture song converts with a non-empty chart
list, and the same song with no difficulties never converts. -/
theorem c10_nonempty_witness :
    (convertSong fixtureFs 1 fixtureSong = .ok (okLevelOf c10run, okWfOf c10run)
      ∧ c10emptySong.difficulties = [])
    ∧ ((okLevelOf c10run).charts ≠ []
       ∧ convertSong fixtureFs 1 c10emptySong ≠ .ok (dummyLevel, [])) :=
  ⟨⟨rfl, rfl⟩,
   ⟨(c10_nonempty fixtureFs 1 fixtureSong 1 []).1 (okLevelOf c10run) (okWfOf c10run) rfl,
    (c10_nonempty fixtureFs 1 c10emptySong 1 []).2.1 rfl dummyLevel []⟩⟩

/-- Claim C1 counterexample: the Catalog Writer applies no rewrite.  On
the one-song fixture the emitted level record's `fileReferences` still
contains the original basename `base.ogg`, which is not a name in the
content store (every store name is a 40-character hash digest plus
extension), so the claim that every `fileReferences` entry exists in the
content store at emission time is false. -/
theorem c1_counterexample :
    "base.ogg" ∈ levelRefs (pipeLevels (runPipeline fixtureFs 0 0 9 [fixtureSong] [fixturePack]))
    ∧ "base.ogg" ∉ pipeStoreNames (runPipeline fixtureFs 0 0 9 [fixtureSong] [fixturePack]) := by
  constructor
  · rw [pipeLevels_runPipeline (show convertSongs fixtureFs (0 + 1) [fixtureSong]
      = .ok (okLevelsOf c4sRun, okWfsOf c4sRun) from rfl)
      (show convertPacks fixtureFs (buildIdents [fixtureSong]) 9 (0 + 1) [fixturePack]
      = .ok (okPacksOf c4pRun, okPackWfOf c4pRun) from rfl)]
    decide
  · intro hmem
    have hlong := pipeStoreNames_long hmem
    have h8 : ("base.ogg" : String).length = 8 := by decide
    omega

/-- Claim C1 amended: the Catalog Writer applies no rewrite map.  A
successful run emits the level and pack records exactly as the Metadata
Transformer built them — chart paths and `fileReferences` keep their
original basenames — and the original-path-to-stored-name mapping is
carried only by the emitted `File` records, each mapping a working-tree
path to the stored name of its content; the content store itself holds
the hash-named files. -/
theorem c1_amended (fs : Fs) (lc pc now : Nat) (songs : List Song)
    (packs : List PackSrc) (ls : List LevelRec) (wfL : List (String × List Nat))
    (ps : List PackRec) (wfP : List (String × List Nat))
    (h1 : convertSongs fs (lc + 1) songs = .ok (ls, wfL))
    (h2 : convertPacks fs (buildIdents songs) now (pc + 1) packs = .ok (ps, wfP)) :
    runPipeline fs lc pc now songs packs =
      .ok { levels := ls, packRecs := ps,
            fileRecs := mkFileRecs (buildTree (wfL ++ wfP)),
            store := (moveFiles (buildTree (wfL ++ wfP))).1 } := by
  unfold runPipeline
  rw [h1]
  dsimp only
  rw [h2]
  dsimp only
  rw [moveFiles_recs]

/-- Witness for the amended C1 at the one-song, one-pack fixture. -/
theorem c1_amended_witness :
    (convertSongs fixtureFs (0 + 1) [fixtureSong] = .ok (okLevelsOf c4sRun, okWfsOf c4sRun)
      ∧ convertPacks fixtureFs (buildIdents [fixtureSong]) 9 (0 + 1) [fixturePack]
         = .ok (okPacksOf c4pRun, okPackWfOf c4pRun))
    ∧ runPipeline fixtureFs 0 0 9 [fixtureSong] [fixturePack] =
        .ok { levels := okLevelsOf c4sRun, packRecs := okPacksOf c4pRun,
              fileRecs := mkFileRecs (buildTree (okWfsOf c4sRun ++ okPackWfOf c4pRun)),
              store := (moveFiles (buildTree (okWfsOf c4sRun ++ okPackWfOf c4pRun))).1 } :=
  ⟨⟨rfl, rfl⟩,
   c1_amended fixtureFs 0 0 9 [fixtureSong] [fixturePack] _ _ _ _ rfl rfl⟩

end ArcUnpack
